import Mathlib

/-!
Verification development for the fastreg maximum-likelihood estimation
engine (`fastreg/general.py`).

The Python source is shallowly embedded over exact rationals: vectors are
lists of rationals, matrices are lists of row vectors.  The JAX automatic
differentiation boundary (`value_and_grad`, `grad`, `hessian`) is an
external library; it is modelled as a bundle of oracle functions supplied
alongside the objective, with the Hessian oracle allowed to fail (the
`try`/`except` in `maxlike` catches exactly those failures).  Python
exceptions are modelled with `Except`, and the diagnostic `print` calls
with an explicit event trace.
-/

/-- A numpy 1-d array of floats, modelled as a list of rationals. -/
abbrev Vec := List ℚ

/-- A numpy 2-d array, modelled as a list of row vectors. -/
abbrev Mat := List (List ℚ)

/-- Elementwise vector addition (numpy `+` on same-shape arrays). -/
def vadd (a b : Vec) : Vec := List.zipWith (· + ·) a b

/-- Elementwise vector subtraction. -/
def vsub (a b : Vec) : Vec := List.zipWith (· - ·) a b

/-- Scalar–vector product. -/
def vsmul (c : ℚ) (v : Vec) : Vec := v.map (fun t => c * t)

/-- Elementwise matrix addition. -/
def madd (a b : Mat) : Mat := List.zipWith vadd a b

/-- Scalar–matrix product. -/
def msmul (c : ℚ) (m : Mat) : Mat := m.map (vsmul c)

/-- `np.zeros(k)`. -/
def zerosV (k : ℕ) : Vec := List.replicate k 0

/-- `np.zeros((k, k))`. -/
def zerosM (k : ℕ) : Mat := List.replicate k (zerosV k)

/-- `np.eye(k)`. -/
def eye (k : ℕ) : Mat :=
  (List.range k).map (fun i => (List.range k).map (fun j => if i = j then (1 : ℚ) else 0))

/-- `np.dot` of two vectors. -/
def dotV (a b : Vec) : ℚ := (List.zipWith (· * ·) a b).sum

/-!  ## Batching (`DataLoader`, general.py lines 57-73) -/

/-- `DataLoader.__init__`: stores labels, covariate rows and the batch
size.  Sparse covariates are already represented densely here, so the
`toarray` densification step is the identity. -/
structure DataLoader where
  y : Vec
  x : Mat
  batch_size : ℕ

/-- `self.data_size = len(y)`. -/
def DataLoader.data_size (d : DataLoader) : ℕ := d.y.length

/-- `self.num_batches = self.data_size // batch_size`. -/
def DataLoader.num_batches (d : DataLoader) : ℕ := d.data_size / d.batch_size

/-- The body of `DataLoader.__iter__`: yield `n` more batches starting at
offset `loc`, advancing `loc` by `batch_size` after each yield.  A Python
slice `a[loc:loc+B]` is `(a.drop loc).take B`. -/
def DataLoader.iterFrom (d : DataLoader) : ℕ → ℕ → List (Vec × Mat)
  | 0, _ => []
  | n + 1, loc =>
      ((d.y.drop loc).take d.batch_size, (d.x.drop loc).take d.batch_size) ::
        d.iterFrom n (loc + d.batch_size)

/-- One full run of `DataLoader.__iter__`: `num_batches` yields starting
from `loc = 0`. -/
def DataLoader.iter (d : DataLoader) : List (Vec × Mat) := d.iterFrom d.num_batches 0

/-- The generator state of `__iter__`: (number of batches already
yielded, current offset `loc`). -/
def DataLoader.nextBatch (d : DataLoader) (s : ℕ × ℕ) :
    Option ((Vec × Mat) × (ℕ × ℕ)) :=
  if s.1 < d.num_batches then
    some (((d.y.drop s.2).take d.batch_size, (d.x.drop s.2).take d.batch_size),
          (s.1 + 1, s.2 + d.batch_size))
  else none

/-- Drain the generator from a given state (with enough fuel). -/
def DataLoader.runFrom (d : DataLoader) : ℕ → ℕ × ℕ → List (Vec × Mat)
  | 0, _ => []
  | fuel + 1, s =>
      match d.nextBatch s with
      | none => []
      | some (b, s') => b :: d.runFrom fuel s'

/-- A fresh call to `iter(data)`: the generator starts over from a fresh
state `(0, 0)`; the loader's own fields are never written by `__iter__`. -/
def DataLoader.freshPass (d : DataLoader) : List (Vec × Mat) :=
  d.runFrom d.num_batches (0, 0)

/-! ### Batching lemmas -/

lemma iterFrom_closed (d : DataLoader) :
    ∀ (n : ℕ) (loc : ℕ),
      d.iterFrom n loc =
        (List.range n).map
          (fun i => ((d.y.drop (loc + i * d.batch_size)).take d.batch_size,
                     (d.x.drop (loc + i * d.batch_size)).take d.batch_size)) := by
  intro n
  induction n with
  | zero => intro loc; rfl
  | succ n ih =>
      intro loc
      rw [DataLoader.iterFrom, List.range_succ_eq_map, List.map_cons, ih (loc + d.batch_size),
        List.map_map]
      congr 1
      · simp
      · apply List.map_congr_left
        intro i _
        simp only [Function.comp_apply]
        have : loc + d.batch_size + i * d.batch_size = loc + (i + 1) * d.batch_size := by ring
        rw [this]

lemma join_slices (l : List ℚ) (B : ℕ) :
    ∀ n : ℕ, ((List.range n).map (fun i => (l.drop (i * B)).take B)).flatten = l.take (n * B) := by
  intro n
  induction n with
  | zero => simp
  | succ n ih =>
      rw [List.range_succ, List.map_append, List.flatten_append, ih]
      have : (n + 1) * B = n * B + B := by ring
      rw [this, List.take_add]
      simp

lemma join_slices_mat (l : Mat) (B : ℕ) :
    ∀ n : ℕ, ((List.range n).map (fun i => (l.drop (i * B)).take B)).flatten = l.take (n * B) := by
  intro n
  induction n with
  | zero => simp
  | succ n ih =>
      rw [List.range_succ, List.map_append, List.flatten_append, ih]
      have : (n + 1) * B = n * B + B := by ring
      rw [this, List.take_add]
      simp

/-- **C2.** For labels of length `N`, covariates of `N` rows and batch
size `B`, the iterator yields exactly `⌊N/B⌋` batches; batch `i` is the
slice starting at offset `i·B`; concatenating the yielded label
(resp. covariate) batches gives exactly the first `⌊N/B⌋·B` records, so
the trailing `N mod B` records appear in no batch; and when `B ∣ N` the
concatenation reconstructs the original arrays exactly. -/
theorem c2_batching (y : Vec) (x : Mat) (B : ℕ) (hB : 0 < B) (hx : x.length = y.length) :
    (DataLoader.mk y x B).iter.length = y.length / B ∧
    (DataLoader.mk y x B).iter =
      (List.range (y.length / B)).map
        (fun i => ((y.drop (i * B)).take B, (x.drop (i * B)).take B)) ∧
    ((DataLoader.mk y x B).iter.map Prod.fst).flatten = y.take (y.length / B * B) ∧
    ((DataLoader.mk y x B).iter.map Prod.snd).flatten = x.take (y.length / B * B) ∧
    (B ∣ y.length →
      ((DataLoader.mk y x B).iter.map Prod.fst).flatten = y ∧
      ((DataLoader.mk y x B).iter.map Prod.snd).flatten = x) := by
  have hclosed : (DataLoader.mk y x B).iter =
      (List.range (y.length / B)).map
        (fun i => ((y.drop (i * B)).take B, (x.drop (i * B)).take B)) := by
    rw [DataLoader.iter, iterFrom_closed]
    simp [DataLoader.num_batches, DataLoader.data_size]
  have hlen : (DataLoader.mk y x B).iter.length = y.length / B := by
    rw [hclosed, List.length_map, List.length_range]
  have hy : ((DataLoader.mk y x B).iter.map Prod.fst).flatten = y.take (y.length / B * B) := by
    rw [hclosed, List.map_map]
    exact join_slices y B (y.length / B)
  have hxm : ((DataLoader.mk y x B).iter.map Prod.snd).flatten = x.take (y.length / B * B) := by
    rw [hclosed, List.map_map]
    exact join_slices_mat x B (y.length / B)
  refine ⟨hlen, hclosed, hy, hxm, ?_⟩
  intro hdvd
  have hNB : y.length / B * B = y.length := Nat.div_mul_cancel hdvd
  constructor
  · rw [hy, hNB, List.take_length]
  · rw [hxm, hNB, ← hx, List.take_length]

/-- Closed witness for C2 at a concrete dataset: `N = 5`, `B = 2`. -/
theorem c2_batching_witness :
    (0 < 2 ∧ ([[(1:ℚ)],[2],[3],[4],[5]] : Mat).length = ([10,20,30,40,50] : Vec).length) ∧
    (DataLoader.mk ([10,20,30,40,50] : Vec) ([[(1:ℚ)],[2],[3],[4],[5]] : Mat) 2).iter.length =
      ([10,20,30,40,50] : Vec).length / 2 := by
  refine ⟨⟨by decide, by decide⟩, ?_⟩
  exact (c2_batching [10,20,30,40,50] [[(1:ℚ)],[2],[3],[4],[5]] 2 (by decide) (by decide)).1

lemma runFrom_eq_iterFrom (d : DataLoader) :
    ∀ (n i loc : ℕ), i + n = d.num_batches → d.runFrom n (i, loc) = d.iterFrom n loc := by
  intro n
  induction n with
  | zero => intro i loc _; rfl
  | succ n ih =>
      intro i loc h
      have hi : i < d.num_batches := by omega
      rw [DataLoader.runFrom, DataLoader.nextBatch]
      simp only [hi, if_true]
      rw [ih (i + 1) (loc + d.batch_size) (by omega)]
      rfl

/-- **C7.** Iterating the same `DataLoader` twice from scratch yields
identical sequences of (label, covariate) batch pairs in identical order:
each call to `__iter__` starts a fresh generator at state `(0, 0)` and
the loader's fields are never mutated, so every fresh pass equals the
canonical batch sequence `iter`. -/
theorem c7_restartable (y : Vec) (x : Mat) (B : ℕ) :
    (DataLoader.mk y x B).freshPass = (DataLoader.mk y x B).freshPass ∧
    (∀ d : DataLoader, d.freshPass = d.iter) := by
  refine ⟨rfl, ?_⟩
  intro d
  exact runFrom_eq_iterFrom d d.num_batches 0 0 (by omega)

/-! ## Estimation (`maxlike`, general.py lines 80-151) -/

/-- The JAX automatic-differentiation boundary for an objective
`model(params, y_bat, x_bat)`: `f` is the objective value, `g` its
gradient in the parameters (`jax.grad`), and `h` its Hessian
(`jax.hessian`).  `jax.value_and_grad` is the pair `(f, g)`.  The Hessian
transform may fail at evaluation time (e.g. an unsupported
second-derivative path through a custom-gradient function), which is
modelled by `Option`. -/
structure AutoDiffModel where
  f : Vec → Vec → Mat → ℚ
  g : Vec → Vec → Mat → Vec
  h : Vec → Vec → Mat → Option Mat

/-- The `output` keyword argument of `maxlike`/`glm`. -/
inductive OutputOpt
  | default
  | beta
deriving DecidableEq

/-- The keyword arguments of `maxlike`, with their Python defaults. -/
structure MaxlikeOpts where
  batch_size : ℕ := 4092
  epochs : ℕ := 3
  learning_rate : ℚ := 1/2
  step : ℚ := 1/10000
  output : OutputOpt := OutputOpt.default

/-- Python exceptions that the embedded code can raise. -/
inductive PyErr
  | zeroDivision
  | linAlgError
deriving DecidableEq

/-- Lines printed to stdout by `maxlike`: the per-epoch loss report, the
printed source of a Hessian error, and the fallback notice. -/
inductive Ev
  | epochLoss (ep : ℕ) (avg : ℚ)
  | errSource
  | fallbackNotice
deriving DecidableEq

/-- The mutable locals of the training loop: `params`, the loop-local
`step` variable (a Python float before the first batch, overwritten with
the update *vector* `-learning_rate*diff` by each batch iteration), and
the epoch statistics `agg_loss`, `agg_batch`. -/
structure TrainState where
  params : Vec
  stepv : ℚ ⊕ Vec
  agg_loss : ℚ
  agg_batch : ℕ

/-- One iteration of `for y_bat, x_bat in data` (general.py lines
104-118): evaluate loss and gradient, set `step = -learning_rate*diff`,
update `params += step`, and accumulate the epoch statistics. -/
def trainStep (m : AutoDiffModel) (lr : ℚ) (s : TrainState) (bat : Vec × Mat) : TrainState :=
  let loss := m.f s.params bat.1 bat.2
  let diff := m.g s.params bat.1 bat.2
  let stp := vsmul (-lr) diff
  ⟨vadd s.params stp, Sum.inr stp, s.agg_loss + loss, s.agg_batch + 1⟩

/-- One epoch: reset the statistics to `(0.0, 0)` and fold `trainStep`
over the batch sequence. -/
def runEpoch (m : AutoDiffModel) (lr : ℚ) (bats : List (Vec × Mat)) (p : Vec)
    (sv : ℚ ⊕ Vec) : TrainState :=
  bats.foldl (trainStep m lr) ⟨p, sv, 0, 0⟩

/-- The `for ep in range(epochs)` loop (general.py lines 99-122), by
recursion on the remaining epochs with `ep` the current epoch index.
After each epoch the code computes `avg_loss = agg_loss/agg_batch` —
a `ZeroDivisionError` when the batch sequence is empty — and prints the
epoch report.  Returns the printed lines and either the error or the
final `params` together with the final value of the `step` variable. -/
def runEpochs (m : AutoDiffModel) (lr : ℚ) (bats : List (Vec × Mat)) :
    ℕ → ℕ → Vec → ℚ ⊕ Vec → List Ev × Except PyErr (Vec × (ℚ ⊕ Vec))
  | 0, _, p, sv => ([], Except.ok (p, sv))
  | n + 1, ep, p, sv =>
      let s := runEpoch m lr bats p sv
      if s.agg_batch = 0 then ([], Except.error PyErr.zeroDivision)
      else
        let rest := runEpochs m lr bats n (ep + 1) s.params s.stepv
        (Ev.epochLoss ep (s.agg_loss / (s.agg_batch : ℚ)) :: rest.1, rest.2)

/-- The `try` block of the Hessian accumulation (general.py lines
130-132): starting from `np.zeros((K, K))`, add the per-batch Hessian
for every batch; the first failing Hessian evaluation aborts the loop. -/
def hessLoop (m : AutoDiffModel) (p : Vec) : List (Vec × Mat) → Mat → Option Mat
  | [], acc => some acc
  | bat :: rest, acc =>
      match m.h p bat.1 bat.2 with
      | none => none
      | some hb => hessLoop m p rest (madd acc hb)

/-- The full `try` block including the final `hess *= batch_size/N`
scaling (`c = batch_size/N`). -/
def hessTry (m : AutoDiffModel) (p : Vec) (bats : List (Vec × Mat)) (K : ℕ) (c : ℚ) :
    Option Mat :=
  (hessLoop m p bats (zerosM K)).map (msmul c)

/-- `diff = step*np.eye(K)` (general.py line 139) under numpy
broadcasting: when the `step` variable still holds the scalar option this
is `step · I`; when it was overwritten with the update vector `v`, entry
`(i, j)` is `v[j] * I[i][j]`, i.e. the diagonal matrix of `v`. -/
def stepEye (sv : ℚ ⊕ Vec) (K : ℕ) : Mat :=
  match sv with
  | Sum.inl s => msmul s (eye K)
  | Sum.inr v =>
      (List.range K).map (fun i =>
        (List.range K).map (fun j => if i = j then v.getD j 0 else 0))

/-- The `/step` in `np.vstack(hess_rows)*(batch_size/N)/step` (line 145)
under numpy broadcasting, applied to one row of the matrix. -/
def stepDivRow (sv : ℚ ⊕ Vec) (row : Vec) : Vec :=
  match sv with
  | Sum.inl s => row.map (fun t => t / s)
  | Sum.inr v => List.zipWith (· / ·) row v

/-- The body of the fallback's batch loop (general.py lines 140-144):
compute the unperturbed gradient `g0` once per batch, then for each
parameter dimension `i` add `g(params + diff[i]) - g0` to `hess_rows[i]`. -/
def fdRowsStep (m : AutoDiffModel) (p : Vec) (dM : Mat) (K : ℕ)
    (rows : List Vec) (bat : Vec × Mat) : List Vec :=
  let g0 := m.g p bat.1 bat.2
  (List.range K).map (fun i =>
    vadd (rows.getD i []) (vsub (m.g (vadd p (dM.getD i [])) bat.1 bat.2) g0))

/-- The whole finite-difference fallback (general.py lines 138-145):
`hess_rows` starts as `K` zero rows, the batch loop accumulates gradient
differences, and the result is `vstack(hess_rows)*(batch_size/N)/step`
with `sv` the run-time value of the `step` variable. -/
def fdFallback (m : AutoDiffModel) (p : Vec) (bats : List (Vec × Mat)) (K : ℕ)
    (sv : ℚ ⊕ Vec) (c : ℚ) : Mat :=
  let dM := stepEye sv K
  let rows := bats.foldl (fdRowsStep m p dM K) (List.replicate K (zerosV K))
  (msmul c rows).map (stepDivRow sv)

/-- Modelled from the spec: the finite-difference fallback *as the claim
states it* — every parameter dimension is perturbed by the configured
scalar `step` option, and the accumulated scaled matrix is divided by
that same scalar.  (This is the source fallback run with the `step`
variable still holding the scalar option.) -/
def specFdFallback (m : AutoDiffModel) (p : Vec) (bats : List (Vec × Mat)) (K : ℕ)
    (stepOpt : ℚ) (c : ℚ) : Mat :=
  fdFallback m p bats K (Sum.inl stepOpt) c

/-- View a `K × K` list matrix as a Mathlib matrix (entries out of range
read as `0`; the embedded code only ever builds well-shaped matrices). -/
def toSq (K : ℕ) (m : Mat) : Matrix (Fin K) (Fin K) ℚ :=
  Matrix.of (fun i j => (m.getD i.val []).getD j.val 0)

/-- Render a Mathlib matrix back as a list matrix. -/
def ofSq (K : ℕ) (A : Matrix (Fin K) (Fin K) ℚ) : Mat :=
  (List.finRange K).map (fun i => (List.finRange K).map (fun j => A i j))

/-- `np.linalg.inv`: raises `LinAlgError` on a singular matrix, otherwise
returns the matrix inverse `det⁻¹ · adjugate`. -/
def npInv (K : ℕ) (m : Mat) : Option Mat :=
  let A := toSq K m
  if A.det = 0 then none else some (ofSq K ((A.det)⁻¹ • A.adjugate))

/-- `maxlike(y, x, model, params0, ...)` (general.py lines 80-151).
Returns the lines printed to stdout together with either the uncaught
Python exception or the returned `(params, sigma)` pair. -/
def maxlike (m : AutoDiffModel) (y : Vec) (x : Mat) (params0 : Vec) (o : MaxlikeOpts) :
    List Ev × Except PyErr (Vec × Option Mat) :=
  let N := y.length
  let K := params0.length
  let bats := (DataLoader.mk y x o.batch_size).iter
  let c : ℚ := (o.batch_size : ℚ) / (N : ℚ)
  match runEpochs m o.learning_rate bats o.epochs 0 params0 (Sum.inl o.step) with
  | (evs, Except.error e) => (evs, Except.error e)
  | (evs, Except.ok (params, sv)) =>
      if o.output = OutputOpt.beta then (evs, Except.ok (params, none))
      else
        match hessTry m params bats K c with
        | some hess =>
            match npInv K hess with
            | none => (evs, Except.error PyErr.linAlgError)
            | some hinv => (evs, Except.ok (params, some (msmul (1 / (N : ℚ)) hinv)))
        | none =>
            let hess := fdFallback m params bats K sv c
            match npInv K hess with
            | none => (evs ++ [Ev.errSource, Ev.fallbackNotice], Except.error PyErr.linAlgError)
            | some hinv =>
                (evs ++ [Ev.errSource, Ev.fallbackNotice],
                 Except.ok (params, some (msmul (1 / (N : ℚ)) hinv)))

/-! ## GLM driver (`glm`, general.py lines 154-187) -/

/-- Modelled from the spec: `design_matrices` lives in `fastreg/design.py`
which is not part of the sources; per spec §6 it returns a label vector,
a covariate matrix of shape `N × K` and the ordered column names.  `glm`
is embedded from the point where that triple has been produced. -/
structure DesignResult where
  y_vec : Vec
  x_mat : Mat
  x_names : List String

/-- `K` from `N, K = x_mat.shape`: the column count of the matrix. -/
def numCols (m : Mat) : ℕ := (m.getD 0 []).length

/-- Arithmetic mean, `np.mean`. -/
def meanQ (v : Vec) : ℚ := v.sum / (v.length : ℚ)

/-- The objective closure built inside `glm` (general.py lines 171-175):
`linear = x·par[-K:]`, `pred = link(linear)`, `like = loss1(par, pred, y)`
elementwise, returning `-mean(like)`. -/
def glmModel (link : ℚ → ℚ) (loss1 : Vec → ℚ → ℚ → ℚ) (K : ℕ)
    (par : Vec) (y : Vec) (x : Mat) : ℚ :=
  let pred := x.map (fun row => link (dotV row (par.drop (par.length - K))))
  let like := List.zipWith (loss1 par) pred y
  Neg.neg (meanQ like)

/-- The value returned by `glm`: a parameter table (modelled from the
spec as the data handed to the external `param_table`), a
`(beta, sigma)` pair, or the parameter vector alone. -/
inductive GlmRet
  | table (beta : Vec) (sigma : Option Mat) (names : List String)
  | pair (beta : Vec) (sigma : Option Mat)
  | betaOnly (beta : Vec)

/-- `glm` (general.py lines 154-187) from the design-matrix boundary on:
`P = len(extra)` extra parameter names are prepended to the column names,
the initial parameter vector is `np.zeros(P+K)`, and the result is
selected by `output` and `table`.  The differentiated objective is the
oracle bundle `ad`. -/
def glm (ad : AutoDiffModel) (dm : DesignResult) (extra : List String)
    (o : MaxlikeOpts) (tb : Bool) : List Ev × Except PyErr GlmRet :=
  let K := numCols dm.x_mat
  let P := extra.length
  let params0 := zerosV (P + K)
  match maxlike ad dm.y_vec dm.x_mat params0 o with
  | (evs, Except.error e) => (evs, Except.error e)
  | (evs, Except.ok (beta, sigma)) =>
      if o.output = OutputOpt.beta then (evs, Except.ok (GlmRet.betaOnly beta))
      else if tb then (evs, Except.ok (GlmRet.table beta sigma (extra ++ dm.x_names)))
      else (evs, Except.ok (GlmRet.pair beta sigma))

/-! ## Evaluation helpers -/

lemma range_one_eq : List.range 1 = [0] := by decide

lemma npInv_one (a : ℚ) (ha : a ≠ 0) : npInv 1 [[a]] = some [[a⁻¹]] := by
  have hdet : (toSq 1 [[a]]).det = a := by rw [Matrix.det_fin_one]; rfl
  show (if (toSq 1 [[a]]).det = 0 then none
        else some (ofSq 1 (((toSq 1 [[a]]).det)⁻¹ • (toSq 1 [[a]]).adjugate))) = some [[a⁻¹]]
  rw [hdet, if_neg ha, Matrix.adjugate_fin_one]
  congr 1
  show ofSq 1 (a⁻¹ • 1) = [[a⁻¹]]
  simp [ofSq, List.finRange, Matrix.smul_apply, Matrix.one_apply]

/-! ## C1: which perturbation size does the fallback use? -/

/-- A one-parameter objective whose gradient oracle is `p ↦ [p₀²]` and
whose Hessian oracle always fails, forcing the fallback. -/
def mFb : AutoDiffModel :=
  AutoDiffModel.mk (fun _ _ _ => 0) (fun p _ _ => [(p.getD 0 0) ^ 2]) (fun _ _ _ => none)

/-- `maxlike` options: `batch_size=1`, `epochs=1`, `learning_rate=1/2`,
`step=1e-4`, default output. -/
def oFb : MaxlikeOpts := MaxlikeOpts.mk 1 1 (1/2) (1/10000) OutputOpt.default

/-- **C1.** Evaluating the code at the failing input `y=[0]`, `x=[[0]]`,
`params0=[1]` with the options of `oFb`: the training loop overwrites the
local variable `step` with the update vector `-learning_rate*diff`
(general.py line 109), so when the Hessian fallback runs, the
perturbation `diff = step*np.eye(K)` and the final division `/step` use
the last update vector `[-1/2]`, not the configured option `1e-4`.  The
code produces the fallback Hessian `[[1/2]]` (and covariance `[[2]]`),
while the computation the claim describes — perturbing by the `step`
option and dividing by it — yields `[[10001/10000]]`.  The two disagree,
refuting the claim on the code. -/
theorem c1_fd_step_overwritten :
    maxlike mFb [0] [[0]] [1] oFb =
      ([Ev.epochLoss 0 0, Ev.errSource, Ev.fallbackNotice],
       Except.ok ([1/2], some [[2]])) ∧
    (runEpochs mFb (1/2) [([0], [[0]])] 1 0 [1] (Sum.inl (1/10000))).2 =
      Except.ok ([1/2], Sum.inr [-(1/2)]) ∧
    fdFallback mFb [1/2] [([0], [[0]])] 1 (Sum.inr [-(1/2)]) 1 = [[1/2]] ∧
    specFdFallback mFb [1/2] [([0], [[0]])] 1 (1/10000) 1 = [[10001/10000]] ∧
    ([[(1:ℚ)/2]] : Mat) ≠ [[10001/10000]] := by
  have hbats : (DataLoader.mk [(0:ℚ)] [[0]] 1).iter = [([0], [[0]])] := by decide
  have h1 : runEpochs mFb (1/2) [([0], [[0]])] 1 0 [1] (Sum.inl (1/10000)) =
      ([Ev.epochLoss 0 0], Except.ok ([1/2], Sum.inr [-(1/2)])) := by
    simp [runEpochs, runEpoch, trainStep, vadd, vsmul, mFb]
    norm_num
  have h2 : hessTry mFb [1/2] [([0], [[0]])] 1 1 = none := rfl
  have h3 : fdFallback mFb [1/2] [([0], [[0]])] 1 (Sum.inr [-(1/2)]) 1 = [[1/2]] := by
    simp [fdFallback, fdRowsStep, stepEye, stepDivRow, vadd, vsub, vsmul, msmul, zerosV,
      range_one_eq, List.getD, mFb]
    norm_num
  have h4 : npInv 1 [[(1:ℚ)/2]] = some [[2]] := by
    rw [npInv_one ((1:ℚ)/2) (by norm_num)]
    norm_num
  have h5 : specFdFallback mFb [1/2] [([0], [[0]])] 1 (1/10000) 1 = [[10001/10000]] := by
    simp [specFdFallback, fdFallback, fdRowsStep, stepEye, stepDivRow, vadd, vsub, vsmul, msmul,
      zerosV, eye, range_one_eq, List.getD, mFb]
    norm_num
  refine ⟨?_, by rw [h1], h3, h5, by norm_num⟩
  simp only [maxlike, oFb]
  norm_num
  rw [hbats, h1]
  simp only []
  norm_num [h2, h3, h4, msmul, vsmul]
  intro h
  exact OutputOpt.noConfusion h

/-! ## C10: batch size larger than the dataset -/

/-- **C10.** When `batch_size > N` the iterator yields zero batches; an
epoch over the empty batch sequence leaves the parameters untouched and
ends with `agg_loss = 0.0` and `agg_batch = 0`, so the unguarded
`avg_loss = agg_loss/agg_batch` is a division of `0.0` by a zero batch
count — in Python a `ZeroDivisionError` that aborts `maxlike` in its
first epoch with nothing printed. -/
theorem c10_empty_batches (m : AutoDiffModel) (y : Vec) (x : Mat) (p0 : Vec) (o : MaxlikeOpts)
    (hB : y.length < o.batch_size) (hep : 1 ≤ o.epochs) :
    (DataLoader.mk y x o.batch_size).iter = [] ∧
    (runEpoch m o.learning_rate ((DataLoader.mk y x o.batch_size).iter) p0
      (Sum.inl o.step)).params = p0 ∧
    (runEpoch m o.learning_rate ((DataLoader.mk y x o.batch_size).iter) p0
      (Sum.inl o.step)).agg_loss = 0 ∧
    (runEpoch m o.learning_rate ((DataLoader.mk y x o.batch_size).iter) p0
      (Sum.inl o.step)).agg_batch = 0 ∧
    maxlike m y x p0 o = ([], Except.error PyErr.zeroDivision) := by
  have hnb : (DataLoader.mk y x o.batch_size).num_batches = 0 := by
    simp [DataLoader.num_batches, DataLoader.data_size]
    exact Nat.div_eq_of_lt hB
  have hiter : (DataLoader.mk y x o.batch_size).iter = [] := by
    rw [DataLoader.iter, hnb]
    rfl
  obtain ⟨k, hk⟩ : ∃ k, o.epochs = k + 1 := ⟨o.epochs - 1, by omega⟩
  have hrun : ∀ ep sv, runEpochs m o.learning_rate [] (k + 1) ep p0 sv =
      ([], Except.error PyErr.zeroDivision) := by
    intro ep sv
    rw [runEpochs]
    rfl
  refine ⟨hiter, by rw [hiter]; rfl, by rw [hiter]; rfl, by rw [hiter]; rfl, ?_⟩
  simp only [maxlike]
  rw [hiter, hk, hrun]

/-! ## C6: the training loop is plain gradient descent, all epochs run -/

/-- The claim's update rule: `params - learning_rate * gradient`. -/
def gdStep (g : Vec → Vec → Mat → Vec) (lr : ℚ) (p : Vec) (bat : Vec × Mat) : Vec :=
  vsub p (vsmul lr (g p bat.1 bat.2))

/-- `n` full passes of plain gradient descent over the batch sequence. -/
def gdEpochs (g : Vec → Vec → Mat → Vec) (lr : ℚ) (bats : List (Vec × Mat)) : ℕ → Vec → Vec
  | 0, p => p
  | n + 1, p => gdEpochs g lr bats n (bats.foldl (gdStep g lr) p)

lemma vadd_vsmul_neg (lr : ℚ) : ∀ p v : Vec, vadd p (vsmul (-lr) v) = vsub p (vsmul lr v) := by
  intro p
  induction p with
  | nil => intro v; rfl
  | cons a p ih =>
      intro v
      cases v with
      | nil => rfl
      | cons b v =>
          show (a + -lr * b) :: vadd p (vsmul (-lr) v) = (a - lr * b) :: vsub p (vsmul lr v)
          rw [ih v]
          congr 1
          ring

lemma foldl_trainStep_params (m : AutoDiffModel) (lr : ℚ) :
    ∀ (bats : List (Vec × Mat)) (st : TrainState),
      (bats.foldl (trainStep m lr) st).params = bats.foldl (gdStep m.g lr) st.params := by
  intro bats
  induction bats with
  | nil => intro st; rfl
  | cons bat rest ih =>
      intro st
      rw [List.foldl_cons, List.foldl_cons, ih]
      congr 1
      show vadd st.params (vsmul (-lr) (m.g st.params bat.1 bat.2)) = gdStep m.g lr st.params bat
      rw [gdStep, vadd_vsmul_neg]

lemma foldl_trainStep_agg_batch (m : AutoDiffModel) (lr : ℚ) :
    ∀ (bats : List (Vec × Mat)) (st : TrainState),
      (bats.foldl (trainStep m lr) st).agg_batch = st.agg_batch + bats.length := by
  intro bats
  induction bats with
  | nil => intro st; rfl
  | cons bat rest ih =>
      intro st
      rw [List.foldl_cons, ih]
      show (trainStep m lr st bat).agg_batch + rest.length = st.agg_batch + (rest.length + 1)
      show st.agg_batch + 1 + rest.length = st.agg_batch + (rest.length + 1)
      omega

lemma runEpochs_ok (m : AutoDiffModel) (lr : ℚ) (bats : List (Vec × Mat)) (hne : bats ≠ []) :
    ∀ (n ep : ℕ) (p : Vec) (sv : ℚ ⊕ Vec),
      ∃ evs sv2, runEpochs m lr bats n ep p sv = (evs, Except.ok (gdEpochs m.g lr bats n p, sv2))
        ∧ evs.length = n := by
  intro n
  induction n with
  | zero => intro ep p sv; exact ⟨[], sv, rfl, rfl⟩
  | succ n ih =>
      intro ep p sv
      have hb : (runEpoch m lr bats p sv).agg_batch ≠ 0 := by
        rw [runEpoch, foldl_trainStep_agg_batch]
        have : bats.length ≠ 0 := fun h => hne (List.length_eq_zero.mp h)
        omega
      obtain ⟨evs, sv2, hrec, hlen⟩ :=
        ih (ep + 1) (runEpoch m lr bats p sv).params (runEpoch m lr bats p sv).stepv
      refine ⟨Ev.epochLoss ep ((runEpoch m lr bats p sv).agg_loss /
        ((runEpoch m lr bats p sv).agg_batch : ℚ)) :: evs, sv2, ?_, by simp [hlen]⟩
      have hp : (runEpoch m lr bats p sv).params = bats.foldl (gdStep m.g lr) p := by
        rw [runEpoch, foldl_trainStep_params]
      rw [hp] at hrec
      simp only [runEpochs, if_neg hb]
      rw [hp, hrec]
      rfl

/-- **C6.** With a nonempty batch sequence, the training loop runs
exactly `epochs` full passes — one epoch report per pass, never an error,
never an early exit, whatever the loss values are — and the resulting
parameters are exactly the plain-gradient-descent iterates: each batch
update is `params - learning_rate * gradient(params)` with no momentum
and no adaptive scaling (the closed form `gdEpochs` depends only on the
gradient oracle, not on the objective values). -/
theorem c6_training_loop (m : AutoDiffModel) (lr : ℚ) (bats : List (Vec × Mat)) (n ep : ℕ)
    (p : Vec) (sv : ℚ ⊕ Vec) (hne : bats ≠ []) :
    (runEpochs m lr bats n ep p sv).1.length = n ∧
    (∃ sv2, (runEpochs m lr bats n ep p sv).2 = Except.ok (gdEpochs m.g lr bats n p, sv2)) ∧
    (∀ (p2 : Vec) (bat : Vec × Mat), gdStep m.g lr p2 bat =
      vsub p2 (vsmul lr (m.g p2 bat.1 bat.2))) := by
  obtain ⟨evs, sv2, heq, hlen⟩ := runEpochs_ok m lr bats hne n ep p sv
  exact ⟨by rw [heq]; exact hlen, ⟨sv2, by rw [heq]⟩, fun _ _ => rfl⟩

/-- Closed witness for C6: two epochs over one batch. -/
theorem c6_training_loop_witness :
    (([([0], [[0]])] : List (Vec × Mat)) ≠ []) ∧
    (runEpochs mFb (1/2) [([0], [[0]])] 2 0 [1] (Sum.inl (1/10000))).1.length = 2 :=
  ⟨by decide,
   (c6_training_loop mFb (1/2) [([0], [[0]])] 2 0 [1] (Sum.inl (1/10000)) (by decide)).1⟩

/-- Closed witness for C10. -/
theorem c10_empty_batches_witness :
    ([(0:ℚ)] : Vec).length < 2 ∧ 1 ≤ 3 ∧
    maxlike mFb [0] [[0]] [7] (MaxlikeOpts.mk 2 3 (1/2) (1/10000) OutputOpt.default) =
      ([], Except.error PyErr.zeroDivision) :=
  ⟨by decide, by decide,
   (c10_empty_batches mFb [0] [[0]] [7] (MaxlikeOpts.mk 2 3 (1/2) (1/10000) OutputOpt.default)
     (by decide) (by decide)).2.2.2.2⟩

/-! ## C5: `output='beta'` skips all covariance work -/

lemma trainStep_h_irrel (f : Vec → Vec → Mat → ℚ) (g : Vec → Vec → Mat → Vec)
    (h1 h2 : Vec → Vec → Mat → Option Mat) (lr : ℚ) :
    trainStep (AutoDiffModel.mk f g h1) lr = trainStep (AutoDiffModel.mk f g h2) lr := rfl

lemma runEpochs_h_irrel (f : Vec → Vec → Mat → ℚ) (g : Vec → Vec → Mat → Vec)
    (h1 h2 : Vec → Vec → Mat → Option Mat) (lr : ℚ) (bats : List (Vec × Mat)) :
    ∀ (n ep : ℕ) (p : Vec) (sv : ℚ ⊕ Vec),
      runEpochs (AutoDiffModel.mk f g h1) lr bats n ep p sv =
        runEpochs (AutoDiffModel.mk f g h2) lr bats n ep p sv := by
  intro n
  induction n with
  | zero => intro ep p sv; rfl
  | succ n ih =>
      intro ep p sv
      have he : runEpoch (AutoDiffModel.mk f g h1) lr bats p sv =
          runEpoch (AutoDiffModel.mk f g h2) lr bats p sv := by
        rw [runEpoch, runEpoch, trainStep_h_irrel f g h1 h2 lr]
      simp only [runEpochs, he, ih]

lemma maxlike_beta (m : AutoDiffModel) (y : Vec) (x : Mat) (p0 : Vec) (o : MaxlikeOpts)
    (hout : o.output = OutputOpt.beta) :
    maxlike m y x p0 o =
      ((runEpochs m o.learning_rate ((DataLoader.mk y x o.batch_size).iter) o.epochs 0 p0
          (Sum.inl o.step)).1,
       (runEpochs m o.learning_rate ((DataLoader.mk y x o.batch_size).iter) o.epochs 0 p0
          (Sum.inl o.step)).2.map (fun pr => (pr.1, none))) := by
  simp only [maxlike]
  rcases hR : runEpochs m o.learning_rate ((DataLoader.mk y x o.batch_size).iter) o.epochs 0 p0
      (Sum.inl o.step) with ⟨evs, r⟩
  cases r with
  | error e => rfl
  | ok pr =>
      obtain ⟨params, sv⟩ := pr
      simp [hout, Except.map]

lemma gdStep_length (g : Vec → Vec → Mat → Vec) (lr : ℚ)
    (hg : ∀ p yb xb, (g p yb xb).length = p.length) (p : Vec) (bat : Vec × Mat) :
    (gdStep g lr p bat).length = p.length := by
  rw [gdStep, vsub, List.length_zipWith, vsmul, List.length_map, hg, Nat.min_self]

lemma foldl_gdStep_length (g : Vec → Vec → Mat → Vec) (lr : ℚ)
    (hg : ∀ p yb xb, (g p yb xb).length = p.length) :
    ∀ (bats : List (Vec × Mat)) (p : Vec), (bats.foldl (gdStep g lr) p).length = p.length := by
  intro bats
  induction bats with
  | nil => intro p; rfl
  | cons bat rest ih =>
      intro p
      rw [List.foldl_cons, ih, gdStep_length g lr hg]

lemma gdEpochs_length (g : Vec → Vec → Mat → Vec) (lr : ℚ) (bats : List (Vec × Mat))
    (hg : ∀ p yb xb, (g p yb xb).length = p.length) :
    ∀ (n : ℕ) (p : Vec), (gdEpochs g lr bats n p).length = p.length := by
  intro n
  induction n with
  | zero => intro p; rfl
  | succ n ih =>
      intro p
      rw [gdEpochs, ih, foldl_gdStep_length g lr hg]

/-- **C5.** When `output = 'beta'`: `maxlike` returns the final parameter
vector paired with `none` — any successfully returned pair has no
covariance — and its result is entirely independent of the Hessian
oracle (no Hessian or covariance computation is performed); moreover
`glm` returns the parameter vector alone, whose length is the number of
extra parameters plus the number `K` of design-matrix columns. -/
theorem c5_beta_output (ad : AutoDiffModel) (dm : DesignResult) (extra : List String)
    (o : MaxlikeOpts) (tb : Bool)
    (hout : o.output = OutputOpt.beta)
    (hg : ∀ p yb xb, (ad.g p yb xb).length = p.length)
    (hbats : (DataLoader.mk dm.y_vec dm.x_mat o.batch_size).iter ≠ []) :
    (∀ (y : Vec) (x : Mat) (p0 : Vec) (evs : List Ev) (r : Vec × Option Mat),
        maxlike ad y x p0 o = (evs, Except.ok r) → r.2 = none) ∧
    (∀ (y : Vec) (x : Mat) (p0 : Vec) (hf : Vec → Vec → Mat → Option Mat),
        maxlike (AutoDiffModel.mk ad.f ad.g hf) y x p0 o = maxlike ad y x p0 o) ∧
    (∃ (evs : List Ev) (beta : Vec),
        glm ad dm extra o tb = (evs, Except.ok (GlmRet.betaOnly beta)) ∧
        beta.length = extra.length + numCols dm.x_mat) := by
  refine ⟨?_, ?_, ?_⟩
  · intro y x p0 evs r h
    rw [maxlike_beta ad y x p0 o hout] at h
    rcases hR : (runEpochs ad o.learning_rate ((DataLoader.mk y x o.batch_size).iter) o.epochs 0
        p0 (Sum.inl o.step)).2 with e | pr
    · rw [hR] at h
      simp [Except.map] at h
    · rw [hR] at h
      simp only [Except.map, Prod.mk.injEq, Except.ok.injEq] at h
      rw [← h.2]
  · intro y x p0 hf
    rw [maxlike_beta (AutoDiffModel.mk ad.f ad.g hf) y x p0 o hout,
      maxlike_beta ad y x p0 o hout,
      runEpochs_h_irrel ad.f ad.g hf ad.h o.learning_rate
        ((DataLoader.mk y x o.batch_size).iter) o.epochs 0 p0 (Sum.inl o.step)]
  · obtain ⟨evs, sv2, hrun, -⟩ := runEpochs_ok ad o.learning_rate
      ((DataLoader.mk dm.y_vec dm.x_mat o.batch_size).iter) hbats o.epochs 0
      (zerosV (extra.length + numCols dm.x_mat)) (Sum.inl o.step)
    refine ⟨evs, gdEpochs ad.g o.learning_rate
      ((DataLoader.mk dm.y_vec dm.x_mat o.batch_size).iter) o.epochs
      (zerosV (extra.length + numCols dm.x_mat)), ?_, ?_⟩
    · simp only [glm]
      rw [maxlike_beta ad dm.y_vec dm.x_mat (zerosV (extra.length + numCols dm.x_mat)) o hout,
        hrun]
      simp [hout, Except.map]
    · rw [gdEpochs_length ad.g o.learning_rate _ hg, zerosV, List.length_replicate]

/-- Concrete model for the C5 witness: the gradient oracle is the
identity in the parameters (length-preserving). -/
def mB : AutoDiffModel :=
  AutoDiffModel.mk (fun _ _ _ => 0) (fun p _ _ => p) (fun _ _ _ => none)

/-- `output='beta'` options for the C5 witness. -/
def oB : MaxlikeOpts := MaxlikeOpts.mk 1 1 (1/2) (1/10000) OutputOpt.beta

/-- Closed witness for C5: one observation, one column, no extras. -/
theorem c5_beta_output_witness :
    (oB.output = OutputOpt.beta ∧
     (DataLoader.mk ([3] : Vec) ([[1]] : Mat) oB.batch_size).iter ≠ []) ∧
    (∃ (evs : List Ev) (beta : Vec),
        glm mB (DesignResult.mk [3] [[1]] []) [] oB true = (evs, Except.ok (GlmRet.betaOnly beta)) ∧
        beta.length = ([] : List String).length + numCols ([[1]] : Mat)) :=
  ⟨⟨rfl, by decide⟩,
   (c5_beta_output mB (DesignResult.mk [3] [[1]] []) [] oB true rfl
     (fun _ _ _ => rfl) (by decide)).2.2⟩

/-! ## C3: exact Hessian accumulation and the covariance -/

/-- The aggregate of the per-batch Hessians over the batch sequence
(the matrix the `try` block accumulates before scaling). -/
def hessSum (m : AutoDiffModel) (p : Vec) (bats : List (Vec × Mat)) (acc : Mat) : Mat :=
  bats.foldl (fun a b => madd a ((m.h p b.1 b.2).getD [])) acc

/-- The matrix inverse `det⁻¹ · adjugate` that `np.linalg.inv` returns on
a nonsingular input, as a list matrix. -/
def matInv (K : ℕ) (A : Mat) : Mat :=
  ofSq K (((toSq K A).det)⁻¹ • (toSq K A).adjugate)

lemma hessLoop_some (m : AutoDiffModel) (p : Vec) :
    ∀ (bats : List (Vec × Mat)) (acc : Mat),
      (∀ b ∈ bats, (m.h p b.1 b.2).isSome) →
      hessLoop m p bats acc = some (hessSum m p bats acc) := by
  intro bats
  induction bats with
  | nil => intro acc _; rfl
  | cons bat rest ih =>
      intro acc hall
      obtain ⟨hb, hhb⟩ := Option.isSome_iff_exists.mp (hall bat (List.mem_cons_self bat rest))
      rw [hessLoop, hhb]
      show hessLoop m p rest (madd acc hb) = _
      rw [ih (madd acc hb) (fun b hbmem => hall b (List.mem_cons_of_mem bat hbmem))]
      congr 1
      show hessSum m p rest (madd acc hb) = hessSum m p (bat :: rest) acc
      rw [hessSum, hessSum, List.foldl_cons, hhb]
      rfl

lemma npInv_nonsing (K : ℕ) (A : Mat) (hdet : (toSq K A).det ≠ 0) :
    npInv K A = some (matInv K A) := by
  show (if (toSq K A).det = 0 then none
        else some (ofSq K (((toSq K A).det)⁻¹ • (toSq K A).adjugate))) = some (matInv K A)
  rw [if_neg hdet, matInv]

lemma npInv_sing (K : ℕ) (A : Mat) (hdet : (toSq K A).det = 0) : npInv K A = none := by
  show (if (toSq K A).det = 0 then none
        else some (ofSq K (((toSq K A).det)⁻¹ • (toSq K A).adjugate))) = none
  rw [if_pos hdet]

lemma toSq_ofSq (K : ℕ) (A : Matrix (Fin K) (Fin K) ℚ) : toSq K (ofSq K A) = A := by
  ext i j
  show ((ofSq K A).getD i.val []).getD j.val 0 = A i j
  have hi : i.val < (ofSq K A).length := by simp [ofSq, i.isLt]
  have hrow : (ofSq K A).getD i.val [] = (List.finRange K).map (fun j2 => A i j2) := by
    rw [List.getD_eq_getElem _ _ hi]
    show (List.map _ (List.finRange K))[i.val] = _
    rw [List.getElem_map]
    congr 1
    simp
  rw [hrow]
  have hj : j.val < ((List.finRange K).map (fun j2 => A i j2)).length := by simp [j.isLt]
  rw [List.getD_eq_getElem _ _ hj, List.getElem_map]
  congr 1
  simp

lemma matInv_mul (K : ℕ) (A : Mat) (hdet : (toSq K A).det ≠ 0) :
    toSq K A * toSq K (matInv K A) = 1 ∧ toSq K (matInv K A) * toSq K A = 1 := by
  rw [matInv, toSq_ofSq]
  constructor
  · rw [Matrix.mul_smul, Matrix.mul_adjugate, smul_smul, inv_mul_cancel₀ hdet, one_smul]
  · rw [Matrix.smul_mul, Matrix.adjugate_mul, smul_smul, inv_mul_cancel₀ hdet, one_smul]

lemma maxlike_full (m : AutoDiffModel) (y : Vec) (x : Mat) (p0 : Vec) (o : MaxlikeOpts)
    (evs : List Ev) (params : Vec) (sv : ℚ ⊕ Vec)
    (hout : o.output ≠ OutputOpt.beta)
    (htr : runEpochs m o.learning_rate ((DataLoader.mk y x o.batch_size).iter) o.epochs 0 p0
        (Sum.inl o.step) = (evs, Except.ok (params, sv))) :
    maxlike m y x p0 o =
      (match hessTry m params ((DataLoader.mk y x o.batch_size).iter) p0.length
          ((o.batch_size : ℚ) / (y.length : ℚ)) with
       | some hess =>
           (match npInv p0.length hess with
            | none => (evs, Except.error PyErr.linAlgError)
            | some hinv => (evs, Except.ok (params, some (msmul (1 / (y.length : ℚ)) hinv))))
       | none =>
           (match npInv p0.length (fdFallback m params ((DataLoader.mk y x o.batch_size).iter)
               p0.length sv ((o.batch_size : ℚ) / (y.length : ℚ))) with
            | none => (evs ++ [Ev.errSource, Ev.fallbackNotice], Except.error PyErr.linAlgError)
            | some hinv => (evs ++ [Ev.errSource, Ev.fallbackNotice],
                Except.ok (params, some (msmul (1 / (y.length : ℚ)) hinv))))) := by
  simp only [maxlike]
  rw [htr]
  simp only [if_neg hout]

/-- **C3.** With `output ≠ 'beta'`, a training run ending at `params`,
and every per-batch Hessian evaluation succeeding: `maxlike` returns the
final parameter vector together with the covariance
`inv(H) / N`, where `H` is the sum over all batches of the per-batch
Hessians at `params` scaled by `batch_size/N`; and the returned matrix
really is the two-sided matrix inverse of the aggregate Hessian `H`. -/
theorem c3_exact_hessian (m : AutoDiffModel) (y : Vec) (x : Mat) (p0 : Vec) (o : MaxlikeOpts)
    (evs : List Ev) (params : Vec) (sv : ℚ ⊕ Vec) (H : Mat)
    (hout : o.output ≠ OutputOpt.beta)
    (htr : runEpochs m o.learning_rate ((DataLoader.mk y x o.batch_size).iter) o.epochs 0 p0
        (Sum.inl o.step) = (evs, Except.ok (params, sv)))
    (hsome : ∀ b ∈ (DataLoader.mk y x o.batch_size).iter, (m.h params b.1 b.2).isSome)
    (hH : H = msmul ((o.batch_size : ℚ) / (y.length : ℚ))
        (hessSum m params ((DataLoader.mk y x o.batch_size).iter) (zerosM p0.length)))
    (hdet : (toSq p0.length H).det ≠ 0) :
    maxlike m y x p0 o =
      (evs, Except.ok (params, some (msmul (1 / (y.length : ℚ)) (matInv p0.length H)))) ∧
    toSq p0.length H * toSq p0.length (matInv p0.length H) = 1 ∧
    toSq p0.length (matInv p0.length H) * toSq p0.length H = 1 := by
  have htry : hessTry m params ((DataLoader.mk y x o.batch_size).iter) p0.length
      ((o.batch_size : ℚ) / (y.length : ℚ)) = some H := by
    rw [hessTry, hessLoop_some m params _ (zerosM p0.length) hsome, Option.map_some', hH]
  obtain ⟨hinv1, hinv2⟩ := matInv_mul p0.length H hdet
  refine ⟨?_, hinv1, hinv2⟩
  rw [maxlike_full m y x p0 o evs params sv hout htr, htry]
  show (match npInv p0.length H with
        | none => (evs, Except.error PyErr.linAlgError)
        | some hinv => (evs, Except.ok (params, some (msmul (1 / (y.length : ℚ)) hinv)))) =
      (evs, Except.ok (params, some (msmul (1 / (y.length : ℚ)) (matInv p0.length H))))
  rw [npInv_nonsing p0.length H hdet]

/-- Concrete model for the C3 witness: constant objective, zero gradient,
constant per-batch Hessian `[[2]]` that always succeeds. -/
def mH : AutoDiffModel :=
  AutoDiffModel.mk (fun _ _ _ => 0) (fun _ _ _ => [0]) (fun _ _ _ => some [[2]])

/-- Options for the C3 witness: one batch of one record, one epoch. -/
def oH : MaxlikeOpts := MaxlikeOpts.mk 1 1 (1/2) (1/10000) OutputOpt.default

/-- Closed witness for C3: the covariance factor is a genuine two-sided
inverse of the aggregate Hessian at a concrete run. -/
theorem c3_exact_hessian_witness :
    toSq 1 ([[2]] : Mat) * toSq 1 (matInv 1 [[2]]) = 1 :=
  (c3_exact_hessian mH [5] [[1]] [0] oH [Ev.epochLoss 0 0] [0] (Sum.inr [0]) [[2]]
    (by decide)
    (by
      rw [(by decide : (DataLoader.mk [(5:ℚ)] [[1]] oH.batch_size).iter = [([5], [[1]])])]
      simp [runEpochs, runEpoch, trainStep, vadd, vsmul, oH, mH])
    (fun b _ => rfl)
    (by
      rw [(by decide : (DataLoader.mk [(5:ℚ)] [[1]] oH.batch_size).iter = [([5], [[1]])])]
      simp [hessSum, madd, vadd, msmul, vsmul, zerosM, zerosV, oH, mH])
    (by
      rw [Matrix.det_fin_one]
      show (2:ℚ) ≠ 0
      norm_num)).2.1

/-! ## C4: the only recovery is the Hessian fallback, always logged -/

lemma runEpochs_events (m : AutoDiffModel) (lr : ℚ) (bats : List (Vec × Mat)) :
    ∀ (n ep : ℕ) (p : Vec) (sv : ℚ ⊕ Vec) (e : Ev),
      e ∈ (runEpochs m lr bats n ep p sv).1 → ∃ i avg, e = Ev.epochLoss i avg := by
  intro n
  induction n with
  | zero =>
      intro ep p sv e he
      simp [runEpochs] at he
  | succ n ih =>
      intro ep p sv e he
      simp only [runEpochs] at he
      by_cases hb : (runEpoch m lr bats p sv).agg_batch = 0
      · rw [if_pos hb] at he
        simp at he
      · rw [if_neg hb] at he
        rcases List.mem_cons.mp he with h1 | h2
        · exact ⟨ep, _, h1⟩
        · exact ih (ep + 1) _ _ e h2

lemma match_fst_fallback (K : ℕ) (A : Mat) (evs : List Ev) (params : Vec) (q : ℚ) :
    (match npInv K A with
     | none => (evs ++ [Ev.errSource, Ev.fallbackNotice], Except.error PyErr.linAlgError)
     | some hinv => (evs ++ [Ev.errSource, Ev.fallbackNotice],
         Except.ok (params, some (msmul q hinv)))).1 = evs ++ [Ev.errSource, Ev.fallbackNotice] := by
  cases npInv K A <;> rfl

lemma match_fst_exact (K : ℕ) (A : Mat) (evs : List Ev) (params : Vec) (q : ℚ) :
    (match npInv K A with
     | none => (evs, Except.error PyErr.linAlgError)
     | some hinv => (evs, Except.ok (params, some (msmul q hinv)))).1 = evs := by
  cases npInv K A <;> rfl

lemma match_val_sing (K : ℕ) (A : Mat) (evs : List Ev) (params : Vec) (q : ℚ)
    (h : npInv K A = none) :
    (match npInv K A with
     | none => (evs, Except.error PyErr.linAlgError)
     | some hinv => (evs, Except.ok (params, some (msmul q hinv)))) =
      (evs, Except.error PyErr.linAlgError) := by
  rw [h]

/-- **C4.** With `output ≠ 'beta'`: (i) an error from the training phase
propagates unchanged, with no recovery and no fallback prints; (ii) if
the exact Hessian accumulation fails, `maxlike` always prints the error
source and the fallback notice; (iii) if the accumulation succeeds, no
fallback diagnostic is ever printed, and a singular aggregate Hessian
makes the inversion error propagate to the caller unrecovered. -/
theorem c4_error_propagation (m : AutoDiffModel) (y : Vec) (x : Mat) (p0 : Vec) (o : MaxlikeOpts)
    (hout : o.output ≠ OutputOpt.beta) :
    (∀ (evs : List Ev) (e : PyErr),
        runEpochs m o.learning_rate ((DataLoader.mk y x o.batch_size).iter) o.epochs 0 p0
          (Sum.inl o.step) = (evs, Except.error e) →
        maxlike m y x p0 o = (evs, Except.error e)) ∧
    (∀ (evs : List Ev) (params : Vec) (sv : ℚ ⊕ Vec),
        runEpochs m o.learning_rate ((DataLoader.mk y x o.batch_size).iter) o.epochs 0 p0
          (Sum.inl o.step) = (evs, Except.ok (params, sv)) →
        ((hessLoop m params ((DataLoader.mk y x o.batch_size).iter) (zerosM p0.length) = none →
            (maxlike m y x p0 o).1 = evs ++ [Ev.errSource, Ev.fallbackNotice]) ∧
         (∀ H : Mat,
            hessLoop m params ((DataLoader.mk y x o.batch_size).iter) (zerosM p0.length) =
              some H →
            Ev.errSource ∉ (maxlike m y x p0 o).1 ∧
            Ev.fallbackNotice ∉ (maxlike m y x p0 o).1 ∧
            ((toSq p0.length (msmul ((o.batch_size : ℚ) / (y.length : ℚ)) H)).det = 0 →
              maxlike m y x p0 o = (evs, Except.error PyErr.linAlgError))))) := by
  constructor
  · intro evs e htr
    simp only [maxlike]
    rw [htr]
  · intro evs params sv htr
    have hml := maxlike_full m y x p0 o evs params sv hout htr
    constructor
    · intro hnone
      have htry : hessTry m params ((DataLoader.mk y x o.batch_size).iter) p0.length
          ((o.batch_size : ℚ) / (y.length : ℚ)) = none := by
        rw [hessTry, hnone]
        rfl
      rw [hml, htry]
      exact match_fst_fallback p0.length _ evs params _
    · intro H hsome
      have htry : hessTry m params ((DataLoader.mk y x o.batch_size).iter) p0.length
          ((o.batch_size : ℚ) / (y.length : ℚ)) =
          some (msmul ((o.batch_size : ℚ) / (y.length : ℚ)) H) := by
        rw [hessTry, hsome]
        rfl
      have hevs : ∀ e2 : Ev, e2 ∈ evs → ∃ i avg, e2 = Ev.epochLoss i avg := by
        intro e2 he2
        apply runEpochs_events m o.learning_rate ((DataLoader.mk y x o.batch_size).iter)
          o.epochs 0 p0 (Sum.inl o.step) e2
        rw [htr]
        exact he2
      have hfst : (maxlike m y x p0 o).1 = evs := by
        rw [hml, htry]
        exact match_fst_exact p0.length _ evs params _
      refine ⟨?_, ?_, ?_⟩
      · rw [hfst]
        intro hmem
        obtain ⟨i, avg, habs⟩ := hevs Ev.errSource hmem
        exact Ev.noConfusion habs
      · rw [hfst]
        intro hmem
        obtain ⟨i, avg, habs⟩ := hevs Ev.fallbackNotice hmem
        exact Ev.noConfusion habs
      · intro hdet0
        rw [hml, htry]
        exact match_val_sing p0.length _ evs params _ (npInv_sing p0.length _ hdet0)

/-- Closed witness for C4: in the forced-fallback run, the output trace
ends with the error source and the fallback notice. -/
theorem c4_error_propagation_witness :
    oFb.output ≠ OutputOpt.beta ∧
    (maxlike mFb [0] [[0]] [1] oFb).1 = [Ev.epochLoss 0 0] ++ [Ev.errSource, Ev.fallbackNotice] :=
  ⟨by decide,
   ((c4_error_propagation mFb [0] [[0]] [1] oFb (by decide)).2 [Ev.epochLoss 0 0] [1/2]
      (Sum.inr [-(1/2)])
      (by
        rw [(by decide : (DataLoader.mk [(0:ℚ)] [[0]] oFb.batch_size).iter = [([0], [[0]])])]
        simp [runEpochs, runEpoch, trainStep, vadd, vsmul, oFb, mFb]
        norm_num)).1 rfl⟩

/-! ## C8: the trigamma asymptotic series (general.py lines 20-22) -/

/-- `trigamma(x)` exactly as written in the source: the fixed asymptotic
series, with no branch on `x` and no convergence check. -/
def trigamma (x : ℚ) : ℚ :=
  1/x + 1/(2*x^2) + 1/(6*x^3) - 1/(30*x^5) + 1/(42*x^7) - 1/(30*x^9) + 5/(66*x^11)
    - 691/(2730*x^13) + 7/(6*x^15)

/-- The (coefficient, reciprocal-power) terms of the series in source
order. -/
def trigammaTerms : List (ℚ × ℕ) :=
  [(1, 1), (1/2, 2), (1/6, 3), (-(1/30), 5), (1/42, 7), (-(1/30), 9), (5/66, 11),
   (-(691/2730), 13), (7/6, 15)]

/-- **C8 (counterexample).** The series in the source has 9 terms, not
the 10 the claim states. -/
theorem c8_ten_terms_counterexample :
    trigammaTerms.length = 9 ∧ trigammaTerms.length ≠ 10 := by
  constructor
  · rfl
  · intro h
    exact absurd h (by decide)

/-- **C8 (amended).** For every input `x`, `trigamma x` equals the fixed
sum of the 9 rational-coefficient reciprocal powers of `x` listed in
`trigammaTerms` — a constant term list, independent of `x`, so there is
no on-the-fly convergence check. -/
theorem c8_trigamma_series (x : ℚ) :
    trigamma x = ((trigammaTerms.map (fun t => t.1 / x ^ t.2)).sum) ∧
    trigammaTerms.length = 9 := by
  refine ⟨?_, rfl⟩
  simp only [trigammaTerms, trigamma, List.map_cons, List.map_nil, List.sum_cons, List.sum_nil,
    div_div, neg_div]
  ring

/-! ## C9: zero-inflated mixture losses and the clip policy
(general.py lines 35-36, 46-51, 200-243).  The transcendental primitives
`np.exp`, `np.log` and the `gammaln` special function are backend
library functions, passed as oracle parameters `e`, `l`, `gl`. -/

/-- `sigmoid(x) = 1/(1+np.exp(-x))` (general.py line 35). -/
def sigmoid (e : ℚ → ℚ) (x : ℚ) : ℚ := 1 / (1 + e (-x))

/-- The module constant `clip_like = 20.0` (general.py line 17). -/
def clip_like : ℚ := 20

/-- `np.clip(v, a_max=amax)`: with no lower bound this is `min v amax`. -/
def npClipMax (v amax : ℚ) : ℚ := min v amax

/-- The `poisson` entry of the loss registry: `y*log(yh) - yh`. -/
def poisson_like (l : ℚ → ℚ) (yh y : ℚ) : ℚ := y * l yh - yh

/-- The `negative_binomial` entry of the loss registry. -/
def negbin_like (l gl : ℚ → ℚ) (r yh y : ℚ) : ℚ :=
  gl (r + y) - gl r + r * l r + y * l yh - (r + y) * l (r + yh)

/-- The `loss` closure of `zero_inflated_poisson` (general.py lines
208-212): `pzero = sigmoid(par[0])`, `clike = clip(poisson_like, 20)`,
and the result is `log(pzero*(y==0) + (1-pzero)*exp(clike))`. -/
def zip_loss (e l : ℚ → ℚ) (par : Vec) (yh y : ℚ) : ℚ :=
  let pzero := sigmoid e (par.getD 0 0)
  let clike := npClipMax (poisson_like l yh y) clip_like
  l (pzero * (if y = 0 then 1 else 0) + (1 - pzero) * e clike)

/-- The `loss` closure of `zero_inflated_negative_binomial` (general.py
lines 236-241): additionally `r = exp(-par[1])`. -/
def zinb_loss (e l gl : ℚ → ℚ) (par : Vec) (yh y : ℚ) : ℚ :=
  let pzero := sigmoid e (par.getD 0 0)
  let r := e (-(par.getD 1 0))
  let clike := npClipMax (negbin_like l gl r yh y) clip_like
  l (pzero * (if y = 0 then 1 else 0) + (1 - pzero) * e clike)

/-- **C9.** In both zero-inflated losses the per-observation loss is
`log(pzero·1{y=0} + (1-pzero)·exp(c))` with `pzero` the sigmoid of the
first extra parameter and `c` the base log-likelihood clipped from above
at `20.0` (that is, `min` with `20`); the clip is applied in every
evaluation and is an upper bound only: values at or below `20` pass
through unchanged. -/
theorem c9_mixture_clip (e l gl : ℚ → ℚ) (par : Vec) (yh y : ℚ) :
    zip_loss e l par yh y =
      l (sigmoid e (par.getD 0 0) * (if y = 0 then 1 else 0) +
        (1 - sigmoid e (par.getD 0 0)) * e (min (poisson_like l yh y) 20)) ∧
    zinb_loss e l gl par yh y =
      l (sigmoid e (par.getD 0 0) * (if y = 0 then 1 else 0) +
        (1 - sigmoid e (par.getD 0 0)) *
          e (min (negbin_like l gl (e (-(par.getD 1 0))) yh y) 20)) ∧
    (∀ v : ℚ, npClipMax v clip_like ≤ clip_like) ∧
    (∀ v : ℚ, v ≤ clip_like → npClipMax v clip_like = v) ∧
    clip_like = 20 :=
  ⟨rfl, rfl, fun v => min_le_right v clip_like, fun v hv => min_eq_left hv, rfl⟩

/-- Closed witness for C9: a value below the bound passes through the
clip unchanged. -/
theorem c9_mixture_clip_witness :
    ((3:ℚ) ≤ clip_like) ∧ npClipMax 3 clip_like = 3 :=
  ⟨by norm_num [clip_like],
   (c9_mixture_clip id id id [] 0 0).2.2.2.1 3 (by norm_num [clip_like])⟩
